import Mathlib

/-!
Verification of the middleware-brigade dispatcher (`compose`, `dispatchToMiddleware`,
`dispatchNext`, `dispatchTerminate`, `callMiddleware`, `locatedError`).

The JavaScript source is embedded shallowly:

* A JavaScript value is `JSValue` (identity of objects and functions is an id).
* A promise is identified with its eventual settlement `Except JSError JSValue`
  (the programs of interest are sequential and terminating, so a promise is
  fully described by whether it resolves or rejects and with what).
* A middleware body is a deep-embedded interaction tree `MWProg`: it may record
  ghost markers, call its `next` or `terminate` continuation and branch on the
  observed outcome, return a value (promise-like or not), or throw synchronously.
* The dispatcher threads the `hasTerminated` flag explicitly and additionally
  emits a ghost event trace (markers, continuation calls, and the two sites
  that set the flag); the events are pure instrumentation and never influence
  the computed results.
-/

namespace Brigade

/-- JavaScript values, as far as the dispatcher can observe them.  Objects and
functions carry an identity, mirroring reference equality. -/
inductive JSValue where
  | undefined : JSValue
  | null : JSValue
  | bool (b : Bool) : JSValue
  | num (n : Int) : JSValue
  | str (s : String) : JSValue
  | obj (id : Nat) : JSValue
  | fn (id : Nat) : JSValue
deriving DecidableEq, Repr

/-- Errors thrown or rejected with: `Error(msg)`, `TypeError(msg)`, or an
arbitrary user-supplied error value identified by id. -/
inductive JSError where
  | error (msg : String) : JSError
  | typeError (msg : String) : JSError
  | userError (id : Nat) : JSError
deriving DecidableEq, Repr

/-- The JavaScript `typeof` operator on our value universe. -/
def jsTypeof : JSValue → String
  | .undefined => "undefined"
  | .null => "object"
  | .bool _ => "boolean"
  | .num _ => "number"
  | .str _ => "string"
  | .obj _ => "object"
  | .fn _ => "function"

instance : DecidableEq (Except JSError JSValue) := fun a b =>
  match a, b with
  | .ok x, .ok y =>
      if h : x = y then .isTrue (h ▸ rfl) else .isFalse (fun hc => h (Except.ok.inj hc))
  | .error x, .error y =>
      if h : x = y then .isTrue (h ▸ rfl) else .isFalse (fun hc => h (Except.error.inj hc))
  | .ok _, .error _ => .isFalse (fun hc => Except.noConfusion hc)
  | .error _, .ok _ => .isFalse (fun hc => Except.noConfusion hc)

/-- What a JavaScript call evaluates to when it returns normally: either a
promise-like object (given by its eventual settlement) or a plain non-promise
value.  The dispatcher distinguishes the two with its
`typeof response.then === function` check. -/
inductive MWReturn where
  | promise (p : Except JSError JSValue) : MWReturn
  | value (v : JSValue) : MWReturn
deriving DecidableEq, Repr

/-- Outcome of one JavaScript call (of a middleware, of a continuation, or of a
dispatch): a synchronous throw, or a returned `MWReturn`. -/
inductive CallOutcome where
  | thrown (e : JSError) : CallOutcome
  | returned (r : MWReturn) : CallOutcome
deriving DecidableEq, Repr

/-- Deep embedding of a middleware body: a sequential program interacting with
its two continuations.  `mark` is ghost instrumentation (records a number);
`callNext`/`callTerminate` call a continuation and continue on its outcome
(the continuation argument sees the synchronous throw or the settled value,
covering both an awaiting middleware and one that forwards raw results). -/
inductive MWProg where
  | ret (r : MWReturn) : MWProg
  | throwSync (e : JSError) : MWProg
  | mark (n : Nat) (rest : MWProg) : MWProg
  | callNext (k : CallOutcome → MWProg) : MWProg
  | callTerminate (k : CallOutcome → MWProg) : MWProg

/-- A middleware function: its `name` property (empty for anonymous functions)
and its behaviour as a function of the request object. -/
structure Middleware where
  name : String
  run : Nat → MWProg

/-- Behaviour of a caller-supplied continuation (`next`/`terminate` of the
composed unit): it either throws synchronously or returns some value. -/
inductive ContBehavior where
  | throws (e : JSError) : ContBehavior
  | returns (r : MWReturn) : ContBehavior

/-- Ghost events recorded while executing one invocation of a composed unit. -/
inductive Event where
  | marked (n : Nat) : Event
  | nextCalled (i : Nat) : Event
  | terminateCalled (i : Nat) : Event
  | advanceAccepted (i : Nat) : Event
  | terminateAccepted (i : Nat) : Event
deriving DecidableEq, Repr

/-- A single-quote character, used by the error messages to quote names. -/
def apos : String := String.singleton (Char.ofNat 39)

/-- Name of the middleware at position `n`, empty when out of range (the range
test below makes the out-of-range value irrelevant). -/
def nameAt (brigade : List Middleware) (n : Nat) : String :=
  match brigade.get? n with
  | some m => m.name
  | none => ""

/-- Compose an error message that identifies the middleware which triggered the
error; if `i` is out of range, the message is returned bare
(source: `locatedError`). -/
def locatedError (brigade : List Middleware) (i : Int) (message : String) : String :=
  if 0 ≤ i ∧ i < (brigade.length : Int) then
    "Composed middleware #" ++ toString i ++ " " ++ apos ++ nameAt brigade i.toNat ++
      apos ++ " " ++ message
  else
    message

/-- Message of the protocol-violation error raised when dispatch is entered
with the termination flag already set. -/
def advanceViolationText : String :=
  "has called its next function after the middleware brigade has been terminated by a prior " ++
    "call to either its next function or its terminate function"

/-- Message of the protocol-violation error raised by `dispatchTerminate` when
the termination flag is already set. -/
def terminateViolationText : String :=
  "has called its terminate function after the middleware brigade has been terminated by a prior " ++
    "call to either its next function or its terminate function"

/-- Message of the `TypeError` raised when a middleware (or the outer `next`)
returns a non-promise value of the given `typeof`. -/
def notAPromiseText (t : String) : String :=
  "has returned a value of type " ++ apos ++ t ++ apos ++ " when a Promise was expected"

/-- Run one middleware program, given the two continuation functions available
at its position (each maps the current flag to an outcome, the new flag, and
the events it emitted) and the position `i` (used only to tag ghost events). -/
def runProg (nextFn terminateFn : Bool → CallOutcome × Bool × List Event) (i : Nat) :
    MWProg → Bool → CallOutcome × Bool × List Event
  | .ret r, t => (.returned r, t, [])
  | .throwSync e, t => (.thrown e, t, [])
  | .mark n p, t =>
      let s := runProg nextFn terminateFn i p t
      (s.1, s.2.1, .marked n :: s.2.2)
  | .callNext k, t =>
      let c := nextFn t
      let s := runProg nextFn terminateFn i (k c.1) c.2.1
      (s.1, s.2.1, .nextCalled i :: (c.2.2 ++ s.2.2))
  | .callTerminate k, t =>
      let c := terminateFn t
      let s := runProg nextFn terminateFn i (k c.1) c.2.1
      (s.1, s.2.1, .terminateCalled i :: (c.2.2 ++ s.2.2))

/-- Prematurely terminate the middleware brigade (source: `dispatchTerminate`,
bound to position `i`): if the flag is already set, throw the protocol
violation; otherwise set the flag first and then call the outer `terminate`. -/
def dispatchTerminate (brigade : List Middleware) (i : Nat) (terminate : ContBehavior)
    (hasTerminated : Bool) : CallOutcome × Bool × List Event :=
  match hasTerminated with
  | true =>
      (.thrown (.error (locatedError brigade (i : Int) terminateViolationText)), true, [])
  | false =>
      match terminate with
      | .throws e => (.thrown e, true, [.terminateAccepted i])
      | .returns r => (.returned r, true, [.terminateAccepted i])

/-- Dispatch to the middleware at cursor `i`, where `rest` is the portion of
the brigade from position `i` on (source: `dispatchToMiddleware`).  With the
flag already set it throws the advance protocol violation attributed to
position `i - 1`; past the end it sets the flag and calls the outer `next`;
otherwise it invokes the middleware with the two continuation closures, checks
that the returned value is promise-like, and converts synchronous throws and
non-promise returns into rejections. -/
def dispatchToMiddleware (brigade : List Middleware) (request : Nat)
    (next terminate : ContBehavior) :
    List Middleware → Nat → Bool → CallOutcome × Bool × List Event
  | _, i, true =>
      (.thrown (.error (locatedError brigade ((i : Int) - 1) advanceViolationText)), true, [])
  | [], i, false =>
      match next with
      | .throws e =>
          (.returned (.promise (.error e)), true, [.advanceAccepted i])
      | .returns (.promise p) =>
          (.returned (.promise p), true, [.advanceAccepted i])
      | .returns (.value v) =>
          (.returned (.promise (.error (.typeError
            (locatedError brigade (i : Int) (notAPromiseText (jsTypeof v)))))), true,
            [.advanceAccepted i])
  | m :: restTail, i, false =>
      let s := runProg
        (fun tb => dispatchToMiddleware brigade request next terminate restTail (i + 1) tb)
        (dispatchTerminate brigade i terminate) i (m.run request) false
      match s.1 with
      | .thrown e => (.returned (.promise (.error e)), s.2.1, s.2.2)
      | .returned (.promise p) => (.returned (.promise p), s.2.1, s.2.2)
      | .returned (.value v) =>
          (.returned (.promise (.error (.typeError
            (locatedError brigade (i : Int) (notAPromiseText (jsTypeof v)))))), s.2.1, s.2.2)
termination_by rest _ _ => rest.length

/-- Dispatch to the next middleware in the brigade (source: `dispatchNext`
closed over position `i`): simply dispatch at cursor `i + 1`, with no check and
no update of the termination flag. -/
def dispatchNext (brigade : List Middleware) (request : Nat)
    (next terminate : ContBehavior) (restTail : List Middleware) (i : Nat) :
    Bool → CallOutcome × Bool × List Event :=
  dispatchToMiddleware brigade request next terminate restTail (i + 1)

/-- One invocation of the unit composed from `brigade` (source:
`composedMiddleware`): begin dispatch at cursor 0 with a fresh flag. -/
def composedMiddleware (brigade : List Middleware) (request : Nat)
    (next terminate : ContBehavior) : CallOutcome × Bool × List Event :=
  dispatchToMiddleware brigade request next terminate brigade 0 false

/-- Compose a middleware brigade (source: `compose`); the argument-shape
invariants hold by typing in this embedding. -/
def compose (brigade : List Middleware) :
    Nat → ContBehavior → ContBehavior → CallOutcome × Bool × List Event :=
  composedMiddleware brigade

/-- An event is an acceptance when it records one of the two sites that set
the termination flag: dispatch walking past the end of the brigade, or
`dispatchTerminate` accepting a terminate call. -/
def Event.isAccept : Event → Bool
  | .advanceAccepted _ => true
  | .terminateAccepted _ => true
  | _ => false

/-- Number of acceptance events in a trace. -/
def acceptCount (tr : List Event) : Nat := (tr.filter Event.isAccept).length

/-- Flag discipline of one execution step that turns flag `t` into flag `t2`
while emitting trace `tr`: the flag afterwards is set exactly if it was set
before or an acceptance was emitted, and a step entered with the flag already
set emits no acceptance while a step entered with the flag clear emits at most
one. -/
def StepOK (t t2 : Bool) (tr : List Event) : Prop :=
  (t2 = true ↔ (t = true ∨ 0 < acceptCount tr)) ∧
    (t = true → acceptCount tr = 0) ∧ acceptCount tr ≤ 1

/-- Forward a continuation outcome as the middleware's own return value: a
returned value is passed back unchanged and a synchronous throw is re-raised
as a rejection (the behaviour of an `async` middleware whose body is
`return await next()`). -/
def forward : CallOutcome → MWReturn
  | .returned r => r
  | .thrown e => .promise (.error e)

/-- Middleware used for the ordering property: record your index, call `next`,
record your index again once it settles, and return its result. -/
def probe (n : Nat) : Middleware where
  name := "probe" ++ toString n
  run := fun _ => .mark n (.callNext fun o => .mark n (.ret (forward o)))

/-- The probes at positions `i`, `i+1`, ..., `i+n-1`, each recording its own
position. -/
def probeRange (i : Nat) : Nat → List Middleware
  | 0 => []
  | n + 1 => probe i :: probeRange (i + 1) n

/-- Markers recorded in a trace, in order. -/
def marksOf (tr : List Event) : List Nat :=
  tr.filterMap fun e =>
    match e with
    | .marked n => some n
    | _ => none

/-- Expected trace of dispatching the probes from position `i` when the outer
`next` resolves. -/
def probeTrace (i : Nat) : Nat → List Event
  | 0 => [.advanceAccepted i]
  | n + 1 => .marked i :: .nextCalled i :: (probeTrace (i + 1) n ++ [.marked i])

/-- A well-behaved outer continuation: returns a promise resolving to an
object. -/
def contOk : ContBehavior := .returns (.promise (.ok (.obj 0)))

/-- Middleware that calls `next` once and returns its result unchanged. -/
def passThrough : Middleware where
  name := "passThrough"
  run := fun _ => .callNext fun o => .ret (forward o)

/-- Middleware that returns a resolved promise without calling either
continuation. -/
def stopper : Middleware where
  name := "stopper"
  run := fun _ => .ret (.promise (.ok (.num 7)))

/-- Middleware that throws synchronously. -/
def thrower : Middleware where
  name := "thrower"
  run := fun _ => .throwSync (.userError 3)

/-- Middleware that calls `next` twice in a row and returns the second
result. -/
def doubleNext : Middleware where
  name := "doubleNext"
  run := fun _ => .callNext fun _ => .callNext fun o => .ret (forward o)

/-- Middleware that records a marker and resolves without calling either
continuation. -/
def marksAndStops : Middleware where
  name := "target"
  run := fun _ => .mark 1 (.ret (.promise (.ok (.num 5))))

/-- A middleware whose `name` property is the empty string (an anonymous
function). -/
def unnamed : Middleware where
  name := ""
  run := fun _ => .ret (.promise (.ok (.obj 0)))

/-- Message of the unexpected-response error raised by `callMiddleware`. -/
def unexpectedResponseText : String :=
  "Middleware brigade terminated with an unexpected response value indicating " ++
    "that a middleware function failed to call next or terminate, or failed to " ++
    "incorporate the resulting value into its own return value"

/-- Message of the undefined-result error raised by `callMiddleware`. -/
def undefinedResultText : String := "Middleware brigade result cannot be undefined"

/-- Settlement value of the continuation `callMiddleware` builds: the response
object if one was supplied, else `undefined`. -/
def respValue : Option Nat → JSValue
  | some o => .obj o
  | none => .undefined

/-- The single continuation function `callMiddleware` passes as both `next`
and `terminate` (source: `continueFn`): resolve to the supplied response. -/
def callContinueFn (response : Option Nat) : Bool → CallOutcome × Bool × List Event :=
  fun t => (.returned (.promise (.ok (respValue response))), t, [])

/-- Does the resolved value violate the sentinel-response identity check?
True exactly when a response was supplied and the value is not
reference-identical to it (source: `response !== undefined && result !== response`). -/
def mismatchesResponse : Option Nat → JSValue → Bool
  | some o, result => !(result == JSValue.obj o)
  | none, _ => false

/-- Result checks applied by `callMiddleware` once the middleware resolves
(source: the `.then` callback in `callMiddleware`). -/
def checkResult (response : Option Nat) (result : JSValue) : Except JSError JSValue :=
  if mismatchesResponse response result then .error (.error unexpectedResponseText)
  else if result = .undefined then .error (.error undefinedResultText)
  else .ok result

/-- Call a middleware with a request and an optional response object (source:
`callMiddleware`); the argument-shape invariants hold by typing in this
embedding.  A middleware that returns a non-promise value makes the
JavaScript `.then` access fail with a synchronous `TypeError`. -/
def callMiddleware (middleware : Middleware) (request : Nat) (response : Option Nat) :
    CallOutcome × List Event :=
  let s := runProg (callContinueFn response) (callContinueFn response) 0
    (middleware.run request) false
  match s.1 with
  | .thrown e => (.thrown e, s.2.2)
  | .returned (.value v) =>
      (.thrown (.typeError ("middleware returned a value of type " ++ apos ++ jsTypeof v ++
        apos ++ " with no then method")), s.2.2)
  | .returned (.promise (.error e)) => (.returned (.promise (.error e)), s.2.2)
  | .returned (.promise (.ok result)) =>
      match checkResult response result with
      | .error e => (.returned (.promise (.error e)), s.2.2)
      | .ok r => (.returned (.promise (.ok r)), s.2.2)

/-- Middleware that returns the plain number 0 instead of a promise. -/
def retZero : Middleware where
  name := "retZero"
  run := fun _ => .ret (.value (.num 0))

/-- Modelled from src/src/index.js: the earlier variant of `locatedError`,
which substitutes a placeholder name only for out-of-range positions and
always emits the position prefix. -/
def locatedErrorLegacy (middleware : List Middleware) (i : Int) (message : String) : String :=
  "Composed middleware #" ++ toString i ++ " " ++ apos ++
    (if i < 0 then "XYZZY-UPDATE-ME"
     else if i < (middleware.length : Int) then nameAt middleware i.toNat
     else "XYZZY-UPDATE-ME") ++ apos ++ " " ++ message

lemma acceptCount_append (tr tr2 : List Event) :
    acceptCount (tr ++ tr2) = acceptCount tr + acceptCount tr2 := by
  simp [acceptCount, List.filter_append]

lemma stepOK_refl (t : Bool) : StepOK t t [] := by
  cases t <;> simp [StepOK, acceptCount]

lemma stepOK_trans {t t2 t3 : Bool} {tr tr2 : List Event}
    (h1 : StepOK t t2 tr) (h2 : StepOK t2 t3 tr2) : StepOK t t3 (tr ++ tr2) := by
  obtain ⟨e1, z1, l1⟩ := h1
  obtain ⟨e2, z2, l2⟩ := h2
  have hc := acceptCount_append tr tr2
  refine ⟨?_, ?_, ?_⟩
  · rw [hc]
    constructor
    · intro h3
      rcases e2.mp h3 with h | h
      · rcases e1.mp h with h0 | h0
        · exact Or.inl h0
        · exact Or.inr (by omega)
      · exact Or.inr (by omega)
    · intro h
      rcases h with h | h
      · exact e2.mpr (Or.inl (e1.mpr (Or.inl h)))
      · by_cases ha : 0 < acceptCount tr
        · exact e2.mpr (Or.inl (e1.mpr (Or.inr ha)))
        · exact e2.mpr (Or.inr (by omega))
  · intro ht
    have ha := z1 ht
    have hb := z2 (e1.mpr (Or.inl ht))
    omega
  · rw [hc]
    by_cases ht2 : t2 = true
    · have hb := z2 ht2
      omega
    · have ha : acceptCount tr = 0 := by
        by_contra hne
        exact ht2 (e1.mpr (Or.inr (Nat.pos_of_ne_zero hne)))
      omega

lemma stepOK_cons_ghost {t t2 : Bool} {tr : List Event} {e : Event}
    (he : e.isAccept = false) (h : StepOK t t2 tr) : StepOK t t2 (e :: tr) := by
  obtain ⟨e1, b1⟩ := h
  have hc : acceptCount (e :: tr) = acceptCount tr := by
    simp [acceptCount, List.filter_cons, he]
  exact ⟨by rw [hc]; exact e1, by rw [hc]; exact b1⟩

/-- Running any middleware program obeys the flag discipline, provided both of
its continuation functions do. -/
lemma runProg_stepOK (nextFn terminateFn : Bool → CallOutcome × Bool × List Event) (i : Nat)
    (hn : ∀ t, StepOK t (nextFn t).2.1 (nextFn t).2.2)
    (ht : ∀ t, StepOK t (terminateFn t).2.1 (terminateFn t).2.2) :
    ∀ (p : MWProg) (t : Bool),
      StepOK t (runProg nextFn terminateFn i p t).2.1 (runProg nextFn terminateFn i p t).2.2 := by
  intro p
  induction p with
  | ret r => intro t; exact stepOK_refl t
  | throwSync e => intro t; exact stepOK_refl t
  | mark n rest ih =>
      intro t
      exact stepOK_cons_ghost rfl (ih t)
  | callNext k ih =>
      intro t
      exact stepOK_cons_ghost rfl (stepOK_trans (hn t) (ih _ (nextFn t).2.1))
  | callTerminate k ih =>
      intro t
      exact stepOK_cons_ghost rfl (stepOK_trans (ht t) (ih _ (terminateFn t).2.1))

/-- `dispatchTerminate` obeys the flag discipline. -/
lemma dispatchTerminate_stepOK (brigade : List Middleware) (i : Nat) (terminate : ContBehavior)
    (t : Bool) :
    StepOK t (dispatchTerminate brigade i terminate t).2.1
      (dispatchTerminate brigade i terminate t).2.2 := by
  cases t <;> cases terminate <;>
    simp [dispatchTerminate, StepOK, acceptCount, Event.isAccept, List.filter]

/-- Dispatch obeys the flag discipline from every cursor and flag state. -/
lemma dispatch_stepOK (brigade : List Middleware) (request : Nat)
    (next terminate : ContBehavior) :
    ∀ (rest : List Middleware) (i : Nat) (t : Bool),
      StepOK t (dispatchToMiddleware brigade request next terminate rest i t).2.1
        (dispatchToMiddleware brigade request next terminate rest i t).2.2 := by
  intro rest
  induction rest with
  | nil =>
      intro i t
      cases t
      · cases next with
        | throws e =>
            simp [dispatchToMiddleware, StepOK, acceptCount, Event.isAccept, List.filter]
        | returns r =>
            cases r <;>
              simp [dispatchToMiddleware, StepOK, acceptCount, Event.isAccept, List.filter]
      · simpa [dispatchToMiddleware] using stepOK_refl true
  | cons m restTail ih =>
      intro i t
      cases t
      · have hs := runProg_stepOK
          (fun tb => dispatchToMiddleware brigade request next terminate restTail (i + 1) tb)
          (dispatchTerminate brigade i terminate) i
          (fun tb => ih (i + 1) tb)
          (fun tb => dispatchTerminate_stepOK brigade i terminate tb)
          (m.run request) false
        simp only [dispatchToMiddleware]
        rcases hrun : runProg
            (fun tb => dispatchToMiddleware brigade request next terminate restTail (i + 1) tb)
            (dispatchTerminate brigade i terminate) i (m.run request) false with ⟨o, t2, tr⟩
        rw [hrun] at hs
        cases o with
        | thrown e => simpa using hs
        | returned r => cases r <;> simpa using hs
      · simpa [dispatchToMiddleware] using stepOK_refl true

/-- Dispatching the probes at positions `i..i+n-1` resolves to the outer
advance value and emits exactly the expected nested trace. -/
lemma dispatch_probeRange (brigade : List Middleware) (request : Nat) (v : JSValue)
    (terminate : ContBehavior) :
    ∀ (n i : Nat),
      dispatchToMiddleware brigade request (.returns (.promise (.ok v))) terminate
        (probeRange i n) i false =
      (.returned (.promise (.ok v)), true, probeTrace i n) := by
  intro n
  induction n with
  | zero =>
      intro i
      simp [probeRange, probeTrace, dispatchToMiddleware]
  | succ n ih =>
      intro i
      simp [probeRange, probeTrace, dispatchToMiddleware, runProg, probe, forward, ih]

/-- The markers of the probe trace are the positions in ascending order
followed by the same positions in descending order. -/
lemma marksOf_probeTrace : ∀ (n i : Nat),
    marksOf (probeTrace i n) = List.range' i n ++ (List.range' i n).reverse := by
  intro n
  induction n with
  | zero => intro i; simp [probeTrace, marksOf]
  | succ n ih =>
      intro i
      simp [probeTrace, marksOf, List.range'_succ, List.reverse_cons] at ih ⊢
      simp [ih]

/-- For an in-range position, `locatedError` expands to the identifying
prefix followed by the quoted middleware name and the message. -/
lemma locatedError_in_range (brigade : List Middleware) (i : Nat) (h : i < brigade.length)
    (message : String) :
    locatedError brigade (i : Int) message =
      "Composed middleware #" ++ toString (i : Int) ++ " " ++ apos ++ nameAt brigade i ++
        apos ++ " " ++ message := by
  have hc : 0 ≤ (i : Int) ∧ (i : Int) < (brigade.length : Int) := by
    constructor <;> omega
  rw [locatedError, if_pos hc]
  simp

/-- Entered with the flag clear, dispatch always returns a promise: no error
escapes it as a synchronous throw. -/
lemma dispatch_no_sync_throw (brigade : List Middleware) (request : Nat)
    (next terminate : ContBehavior) (rest : List Middleware) (i : Nat) :
    ∃ p, (dispatchToMiddleware brigade request next terminate rest i false).1 =
      .returned (.promise p) := by
  cases rest with
  | nil =>
      cases next with
      | throws e => exact ⟨.error e, by simp [dispatchToMiddleware]⟩
      | returns r =>
          cases r with
          | promise p => exact ⟨p, by simp [dispatchToMiddleware]⟩
          | value v =>
              exact ⟨.error (.typeError (locatedError brigade (i : Int)
                (notAPromiseText (jsTypeof v)))), by simp [dispatchToMiddleware]⟩
  | cons m restTail =>
      simp only [dispatchToMiddleware]
      rcases hrun : runProg
          (fun tb => dispatchToMiddleware brigade request next terminate restTail (i + 1) tb)
          (dispatchTerminate brigade i terminate) i (m.run request) false with ⟨o, t2, tr⟩
      cases o with
      | thrown e => exact ⟨.error e, by simp⟩
      | returned r =>
          cases r with
          | promise p => exact ⟨p, by simp⟩
          | value v =>
              exact ⟨.error (.typeError (locatedError brigade (i : Int)
                (notAPromiseText (jsTypeof v)))), by simp⟩

/-- C1, counterexample: in the brigade `[passThrough, stopper]` the first
middleware exercises its advance continuation (the invocation's trace is
exactly one advance call from position 0), yet the invocation ends with the
termination flag still false, refuting that the flag becomes true "exactly
when either continuation operation is exercised from any position". -/
theorem advance_exercised_without_flag :
    (composedMiddleware [passThrough, stopper] 0 contOk contOk).2.2 = [.nextCalled 0] ∧
    (composedMiddleware [passThrough, stopper] 0 contOk contOk).2.1 = false := by
  have h : composedMiddleware [passThrough, stopper] 0 contOk contOk =
      (.returned (.promise (.ok (.num 7))), false, [.nextCalled 0]) := by
    simp [composedMiddleware, dispatchToMiddleware, runProg, passThrough, stopper, forward,
      contOk]
  rw [h]
  exact ⟨rfl, rfl⟩

/-- C1, amended: within one invocation the termination flag is monotone and is
set at most once — after any dispatch step the flag is set exactly if it was
already set or one acceptance event (advance walking past the end of the
brigade, or an accepted shortcut) was emitted, and at most one acceptance is
ever emitted — and once the flag is true, any further continuation call from
any position is reported as a protocol violation. -/
theorem termination_flag_invariant (brigade : List Middleware) (request : Nat)
    (next terminate : ContBehavior) (rest : List Middleware) (i : Nat) (t : Bool) :
    StepOK t (dispatchToMiddleware brigade request next terminate rest i t).2.1
      (dispatchToMiddleware brigade request next terminate rest i t).2.2 ∧
    StepOK false (composedMiddleware brigade request next terminate).2.1
      (composedMiddleware brigade request next terminate).2.2 ∧
    dispatchToMiddleware brigade request next terminate rest i true =
      (.thrown (.error (locatedError brigade ((i : Int) - 1) advanceViolationText)), true, []) ∧
    dispatchTerminate brigade i terminate true =
      (.thrown (.error (locatedError brigade (i : Int) terminateViolationText)), true, []) := by
  refine ⟨dispatch_stepOK brigade request next terminate rest i t,
    dispatch_stepOK brigade request next terminate brigade 0 false, ?_, rfl⟩
  simp [dispatchToMiddleware]

/-- C2: a brigade of `N` probes, each recording its index before calling
advance and again after advance's promise resolves and returning the result,
records the `N` before-marks in brigade order `0..N-1` followed by the `N`
after-marks in reverse order, and resolves to the outer advance value. -/
theorem brigade_ordering (N request : Nat) (v : JSValue) (terminate : ContBehavior) :
    marksOf (composedMiddleware (probeRange 0 N) request
        (.returns (.promise (.ok v))) terminate).2.2 =
      List.range N ++ (List.range N).reverse ∧
    (composedMiddleware (probeRange 0 N) request
        (.returns (.promise (.ok v))) terminate).1 = .returned (.promise (.ok v)) := by
  have h := dispatch_probeRange (probeRange 0 N) request v terminate N 0
  constructor
  · rw [composedMiddleware, h, marksOf_probeTrace, List.range_eq_range']
  · rw [composedMiddleware, h]

/-- C3: the unit composed from the empty brigade resolves to exactly the
settlement of the advance continuation, and the shortcut continuation is
never called — for every behaviour of the outer continuations, the only event
of the invocation is the past-the-end advance acceptance. -/
theorem empty_brigade_resolves_advance (request : Nat) (terminate : ContBehavior) :
    (∀ p : Except JSError JSValue,
      composedMiddleware [] request (.returns (.promise p)) terminate =
        (.returned (.promise p), true, [.advanceAccepted 0])) ∧
    (∀ next : ContBehavior,
      (composedMiddleware [] request next terminate).2.2 = [.advanceAccepted 0]) ∧
    (∀ (next : ContBehavior) (j : Nat),
      Event.terminateCalled j ∉ (composedMiddleware [] request next terminate).2.2 ∧
      Event.terminateAccepted j ∉ (composedMiddleware [] request next terminate).2.2) := by
  have htr : ∀ next : ContBehavior,
      (composedMiddleware [] request next terminate).2.2 = [.advanceAccepted 0] := by
    intro next
    cases next with
    | throws e => simp [composedMiddleware, dispatchToMiddleware]
    | returns r => cases r <;> simp [composedMiddleware, dispatchToMiddleware]
  refine ⟨?_, htr, ?_⟩
  · intro p
    simp [composedMiddleware, dispatchToMiddleware]
  · intro next j
    rw [htr next]
    constructor <;> simp

/-- C4: `dispatchTerminate` bound to position `i`: with the flag already true
it throws a protocol-violation error naming position `i`'s middleware and the
terminate misuse; otherwise the flag is set before the outer continuation is
consulted (it comes back true even when that continuation throws) and the
outer shortcut continuation's outcome is returned upward unchanged. -/
theorem dispatchTerminate_spec (brigade : List Middleware) (i : Nat)
    (terminate : ContBehavior) (h : i < brigade.length) :
    dispatchTerminate brigade i terminate true =
      (.thrown (.error ("Composed middleware #" ++ toString (i : Int) ++ " " ++ apos ++
        nameAt brigade i ++ apos ++ " " ++ terminateViolationText)), true, []) ∧
    (∀ r : MWReturn, dispatchTerminate brigade i (.returns r) false =
      (.returned r, true, [.terminateAccepted i])) ∧
    (∀ e : JSError, dispatchTerminate brigade i (.throws e) false =
      (.thrown e, true, [.terminateAccepted i])) := by
  refine ⟨?_, fun r => rfl, fun e => rfl⟩
  rw [show dispatchTerminate brigade i terminate true =
      (.thrown (.error (locatedError brigade (i : Int) terminateViolationText)), true, [])
    from rfl, locatedError_in_range brigade i h]

/-- Witness for `dispatchTerminate_spec` at a concrete brigade and position. -/
theorem dispatchTerminate_spec_witness :
    dispatchTerminate [stopper] 0 (.returns (.promise (.ok (.obj 4)))) false =
      (.returned (.promise (.ok (.obj 4))), true, [.terminateAccepted 0]) :=
  (dispatchTerminate_spec [stopper] 0 (.returns (.promise (.ok (.obj 4))))
    (by decide)).2.1 (.promise (.ok (.obj 4)))

/-- C5: entering dispatch at position `i ≥ 1` with the flag already true fails
with a protocol-violation error naming the middleware at position `i - 1` and
stating the advance misuse. -/
theorem dispatch_entry_terminated_violation (brigade : List Middleware) (request : Nat)
    (next terminate : ContBehavior) (rest : List Middleware) (i : Nat)
    (h1 : 1 ≤ i) (h2 : i - 1 < brigade.length) :
    dispatchToMiddleware brigade request next terminate rest i true =
      (.thrown (.error ("Composed middleware #" ++ toString ((i : Int) - 1) ++ " " ++ apos ++
        nameAt brigade (i - 1) ++ apos ++ " " ++ advanceViolationText)), true, []) := by
  have hcast : (i : Int) - 1 = ((i - 1 : Nat) : Int) := by omega
  simp only [dispatchToMiddleware]
  rw [hcast, locatedError_in_range brigade (i - 1) h2]

/-- Witness for `dispatch_entry_terminated_violation` at position 2 of a
two-middleware brigade. -/
theorem dispatch_entry_violation_witness :
    dispatchToMiddleware [stopper, passThrough] 0 contOk contOk [] 2 true =
      (.thrown (.error ("Composed middleware #" ++ toString ((2 : Int) - 1) ++ " " ++ apos ++
        nameAt [stopper, passThrough] 1 ++ apos ++ " " ++ advanceViolationText)), true, []) :=
  dispatch_entry_terminated_violation [stopper, passThrough] 0 contOk contOk [] 2
    (by decide) (by decide)

/-- C6, counterexample: with the empty brigade and an outer advance returning
the plain number 0, the composed unit rejects with the Promise-was-expected
`TypeError`, but the message is the bare text: `locatedError` is consulted
out of range, and the message contains no position marker at all (not even
the `#` character), so it does not identify the offender by position as the
claim states. -/
theorem past_end_type_error_unlocated :
    composedMiddleware [] 0 (.returns (.value (.num 0))) contOk =
      (.returned (.promise (.error (.typeError (notAPromiseText (jsTypeof (.num 0)))))), true,
        [.advanceAccepted 0]) ∧
    locatedError [] (0 : Int) (notAPromiseText (jsTypeof (.num 0))) =
      notAPromiseText (jsTypeof (.num 0)) ∧
    ((notAPromiseText (jsTypeof (.num 0))).data.contains (Char.ofNat 35)) = false := by
  refine ⟨?_, ?_, ?_⟩
  · simp [composedMiddleware, dispatchToMiddleware, locatedError]
  · simp [locatedError]
  · decide

/-- C6, amended: a non-promise value produced at position `i` rejects the
dispatch with a `TypeError` carrying the Promise-was-expected text and the
actual value's `typeof`; when `i` lies within the brigade the message also
identifies the offending middleware by position, while past the end (the
outer advance continuation) the message carries no position prefix. -/
theorem non_promise_rejects_type_error (brigade : List Middleware) (request : Nat)
    (next terminate : ContBehavior) (m : Middleware) (restTail : List Middleware) (i : Nat)
    (v : JSValue) (t2 : Bool) (tr : List Event)
    (hrun : runProg
        (fun tb => dispatchToMiddleware brigade request next terminate restTail (i + 1) tb)
        (dispatchTerminate brigade i terminate) i (m.run request) false =
      (.returned (.value v), t2, tr)) :
    dispatchToMiddleware brigade request next terminate (m :: restTail) i false =
      (.returned (.promise (.error (.typeError
        (locatedError brigade (i : Int) (notAPromiseText (jsTypeof v)))))), t2, tr) ∧
    (i < brigade.length →
      locatedError brigade (i : Int) (notAPromiseText (jsTypeof v)) =
        "Composed middleware #" ++ toString (i : Int) ++ " " ++ apos ++ nameAt brigade i ++
          apos ++ " " ++ notAPromiseText (jsTypeof v)) ∧
    (∀ w : JSValue,
      dispatchToMiddleware brigade request (.returns (.value w)) terminate [] i false =
        (.returned (.promise (.error (.typeError
          (locatedError brigade (i : Int) (notAPromiseText (jsTypeof w)))))), true,
          [.advanceAccepted i])) := by
  refine ⟨?_, fun hi => locatedError_in_range brigade i hi _,
    fun w => by simp [dispatchToMiddleware]⟩
  simp only [dispatchToMiddleware]
  rw [hrun]

/-- Witness for `non_promise_rejects_type_error`: a middleware returning the
plain number 0 at position 0. -/
theorem non_promise_witness :
    dispatchToMiddleware [retZero] 0 contOk contOk [retZero] 0 false =
      (.returned (.promise (.error (.typeError
        (locatedError [retZero] (0 : Int) (notAPromiseText (jsTypeof (.num 0))))))),
        false, []) :=
  (non_promise_rejects_type_error [retZero] 0 contOk contOk retZero [] 0 (.num 0)
    false [] rfl).1

/-- C7: the composed unit never lets an error escape as a synchronous throw
(its result is always a promise), and errors pass through unmodified: a
middleware's synchronous throw and its returned rejection both surface as the
same error rejecting the dispatch at its position, and an outer advance
continuation that throws surfaces as the composed unit rejecting with that
same error. -/
theorem errors_surface_as_rejections (brigade : List Middleware) (request : Nat)
    (next terminate : ContBehavior) (m : Middleware) (restTail : List Middleware) (i : Nat)
    (e : JSError) (t2 : Bool) (tr : List Event) :
    (∃ p, (composedMiddleware brigade request next terminate).1 = .returned (.promise p)) ∧
    (runProg
        (fun tb => dispatchToMiddleware brigade request next terminate restTail (i + 1) tb)
        (dispatchTerminate brigade i terminate) i (m.run request) false =
          (.thrown e, t2, tr) →
      dispatchToMiddleware brigade request next terminate (m :: restTail) i false =
        (.returned (.promise (.error e)), t2, tr)) ∧
    (runProg
        (fun tb => dispatchToMiddleware brigade request next terminate restTail (i + 1) tb)
        (dispatchTerminate brigade i terminate) i (m.run request) false =
          (.returned (.promise (.error e)), t2, tr) →
      dispatchToMiddleware brigade request next terminate (m :: restTail) i false =
        (.returned (.promise (.error e)), t2, tr)) ∧
    dispatchToMiddleware brigade request (.throws e) terminate [] i false =
      (.returned (.promise (.error e)), true, [.advanceAccepted i]) := by
  refine ⟨dispatch_no_sync_throw brigade request next terminate brigade 0, ?_, ?_, ?_⟩
  · intro hrun
    simp only [dispatchToMiddleware]
    rw [hrun]
  · intro hrun
    simp only [dispatchToMiddleware]
    rw [hrun]
  · simp [dispatchToMiddleware]

/-- Witness for `errors_surface_as_rejections`: a synchronously throwing
middleware makes the composed unit reject with that very error. -/
theorem errors_surface_witness :
    dispatchToMiddleware [thrower] 0 contOk contOk [thrower] 0 false =
      (.returned (.promise (.error (.userError 3))), false, []) :=
  (errors_surface_as_rejections [thrower] 0 contOk contOk thrower [] 0
    (.userError 3) false []).2.1 rfl

/-- C8: once the middleware called by `callMiddleware` resolves, the result is
rejected with the unexpected-response error when a response was supplied and
the resolved value is not reference-identical to it, rejected with the
undefined-result error when no response was supplied and the value is
`undefined`, and otherwise resolves to the middleware's resolved value. -/
theorem callMiddleware_result_checks (middleware : Middleware) (request : Nat)
    (response : Option Nat) (result : JSValue) (t2 : Bool) (tr : List Event)
    (hrun : runProg (callContinueFn response) (callContinueFn response) 0
        (middleware.run request) false = (.returned (.promise (.ok result)), t2, tr)) :
    (∀ o : Nat, response = some o → result ≠ .obj o →
      (callMiddleware middleware request response).1 =
        .returned (.promise (.error (.error unexpectedResponseText)))) ∧
    (∀ o : Nat, response = some o → result = .obj o →
      (callMiddleware middleware request response).1 = .returned (.promise (.ok result))) ∧
    (response = none → result = .undefined →
      (callMiddleware middleware request response).1 =
        .returned (.promise (.error (.error undefinedResultText)))) ∧
    (response = none → result ≠ .undefined →
      (callMiddleware middleware request response).1 = .returned (.promise (.ok result))) := by
  refine ⟨?_, ?_, ?_, ?_⟩
  · rintro o rfl hne
    simp [callMiddleware, hrun, checkResult, mismatchesResponse, hne]
  · rintro o rfl rfl
    simp [callMiddleware, hrun, checkResult, mismatchesResponse]
  · rintro rfl rfl
    simp [callMiddleware, hrun, checkResult, mismatchesResponse]
  · rintro rfl hne
    simp [callMiddleware, hrun, checkResult, mismatchesResponse, hne]

/-- Witness for `callMiddleware_result_checks`: a pass-through middleware in
sentinel-response mode resolves to the sentinel. -/
theorem callMiddleware_checks_witness :
    (callMiddleware passThrough 0 (some 5)).1 = .returned (.promise (.ok (.obj 5))) :=
  (callMiddleware_result_checks passThrough 0 (some 5) (.obj 5) false
    [.nextCalled 0] rfl).2.1 5 rfl rfl

/-- C9, counterexample: for a middleware whose name is empty, the located
error message carries an empty identifier — the two quote marks are adjacent
with nothing between them — rather than any placeholder identifier. -/
theorem unnamed_middleware_empty_identifier :
    locatedError [unnamed] 0 "failed" =
      "Composed middleware #0 " ++ apos ++ apos ++ " failed" ∧
    nameAt [unnamed] 0 = "" := by
  constructor
  · rw [locatedError, if_pos (by decide)]
    simp [nameAt, unnamed, apos]
    decide
  · rfl

/-- C9, amended: in both variants of `locatedError` an in-range middleware
without a name appears with an empty identifier between the quote marks; no
placeholder is substituted for unnamed middleware (the legacy variant uses
its placeholder only for out-of-range positions, where no middleware is being
identified). -/
theorem locatedError_unnamed (brigade : List Middleware) (i : Nat) (message : String)
    (h : i < brigade.length) (hname : nameAt brigade i = "") :
    locatedError brigade (i : Int) message =
      "Composed middleware #" ++ toString (i : Int) ++ " " ++ apos ++ "" ++ apos ++ " " ++
        message ∧
    locatedErrorLegacy brigade (i : Int) message =
      "Composed middleware #" ++ toString (i : Int) ++ " " ++ apos ++ "" ++ apos ++ " " ++
        message := by
  constructor
  · rw [locatedError_in_range brigade i h, hname]
  · have h0 : ¬((i : Int) < 0) := by omega
    have h1 : (i : Int) < (brigade.length : Int) := by omega
    rw [locatedErrorLegacy, if_neg h0, if_pos h1]
    simp [hname]

/-- Witness for `locatedError_unnamed` at a concrete unnamed middleware. -/
theorem locatedError_unnamed_witness :
    locatedError [unnamed] ((0 : Nat) : Int) "failed" =
      "Composed middleware #" ++ toString ((0 : Nat) : Int) ++ " " ++ apos ++ "" ++ apos ++
        " " ++ "failed" :=
  (locatedError_unnamed [unnamed] 0 "failed" (by decide) rfl).1

/-- C10: `dispatchNext` performs no check and no update of the termination
flag — it is exactly dispatch at cursor `i + 1` — so a middleware that calls
advance a second time before the chain started by its first advance call has
reached the end of the brigade or exercised a shortcut raises no protocol
violation: the next middleware simply runs twice (its marker appears twice)
and the invocation resolves normally. -/
theorem double_advance_no_violation :
    (∀ (brigade : List Middleware) (request : Nat) (next terminate : ContBehavior)
        (restTail : List Middleware) (i : Nat) (t : Bool),
      dispatchNext brigade request next terminate restTail i t =
        dispatchToMiddleware brigade request next terminate restTail (i + 1) t) ∧
    composedMiddleware [doubleNext, marksAndStops] 0 contOk contOk =
      (.returned (.promise (.ok (.num 5))), false,
        [.nextCalled 0, .marked 1, .nextCalled 0, .marked 1]) := by
  refine ⟨fun _ _ _ _ _ _ _ => rfl, ?_⟩
  simp [composedMiddleware, dispatchToMiddleware, runProg, doubleNext, marksAndStops, forward,
    contOk]

end Brigade
